import Mathlib

/-!
Shallow embedding of `cmd/subcommands/root.go` of the gotron-sdk CLI
(`tronctl`): the root command's endpoint normalization, signer/address
resolution (`findAddress`), the update-check routine (`getGitVersion`),
the top-level `Execute` handler, and the transaction-option application
(`opts`).

Modelling conventions:
  * Go strings are modelled as Lean `String`s viewed as sequences of
    characters (`String.data`); Go's byte-indexed slicing is modelled by
    character indexing, which agrees on the ASCII data (commit SHAs,
    version stamps) these functions handle.
  * A Go panic (nil-pointer dereference, out-of-bounds slice/index) is
    modelled by `Option.none` on the result.
  * HTTP I/O is abstracted: an `http.Get` outcome is `none` for a
    transport error (nil `*http.Response`) and `some` a response with a
    status code and an already-decoded body (`Except` models
    `json.Unmarshal` failure).
  * Writes to standard error are collected in a `List String`.
  * `uint32` values carry no arithmetic here, so they are modelled as
    `Nat`.
-/

set_option autoImplicit false

/-- Go's `strings.Split(s, sep)` for a single-character separator `c`:
the (never empty) list of maximal runs of `s` between occurrences of
`c`. `strings.Split("", c)` is `[""]`, matching the base case. -/
def splitOnChar (c : Char) : List Char → List (List Char)
  | [] => [[]]
  | x :: xs =>
    match splitOnChar c xs with
    | [] => [[]]
    | h :: t => if x = c then [] :: h :: t else (x :: h) :: t

/-- Endpoint normalization performed by `RootCmd.PersistentPreRunE`:
`switch len(strings.Split(node, ":")) { case 1: node = node + ":50051" }`. -/
def normalizeNode (node : String) : String :=
  if (splitOnChar ':' node.data).length = 1 then node ++ ":50051" else node

/-- `findAddress(value)` from `root.go`, parameterized by the two
external resolution oracles it calls: `parse` models
`tronAddress.Set` (literal address parsing, defined outside this file's
source) and `fromAccountName` models `store.AddressFromAccountName`
(address-book lookup). `none` models the Go error return of the oracle. -/
def findAddress {A : Type} (parse : String → Option A)
    (fromAccountName : String → Option A) (value : String) :
    Except String A :=
  match parse value with
  | some a => Except.ok a
  | none =>
    match fromAccountName value with
    | some acc => Except.ok acc
    | none => Except.error ("Invalid address/Invalid account name: " ++ value)

/-- The `tag_name` field decoded from the release endpoint
(`GitHubRelease` json struct; the other fields are unused by
`getGitVersion`). -/
structure GitHubRelease where
  TagName : String
deriving DecidableEq, Repr

/-- The `object.sha` field decoded from the tag endpoint (`GitHubTag`
json struct, `DATA.SHA` in the source; the other fields are unused). -/
structure GitHubTag where
  SHA : String
deriving DecidableEq, Repr

/-- An `http.Get` response: status code plus the decoded body;
`Except.error` models a `json.Unmarshal` failure when the body is read. -/
structure HttpResponse (α : Type) where
  statusCode : Nat
  body : Except String α
deriving Repr

/-- The observable outcome of one `getGitVersion()` call: the returned
tag string, the returned error (`none` for Go `nil`), and the lines it
wrote to standard error. -/
structure GitVersionOut where
  tag : String
  err : Option String
  stderr : List String
deriving DecidableEq, Repr

/-- The warning message built by `getGitVersion` on a version mismatch:
`"Warning: Using outdated version. Redownload to upgrade to %s\n"`. -/
def warnUpgradeMsg (tagName : String) : String :=
  "Warning: Using outdated version. Redownload to upgrade to " ++ tagName ++ "\n"

/-- The comparison step of `getGitVersion`:
`commit := strings.Split(VersionWrapDump, "-"); releaseTag.DATA.SHA[:8] != commit[1]`.
`SHA[:8]` index-faults when the SHA is shorter than 8 characters, and
`commit[1]` index-faults when the stamp has no second segment; both
faults are `none`. `some b` means the comparison ran, with `b = true`
exactly when the prefixes differ. -/
def versionCompare (sha dump : String) : Option Bool :=
  if sha.data.length < 8 then none
  else if (splitOnChar '-' dump.data).length < 2 then none
  else some (decide (sha.data.take 8 ≠ (splitOnChar '-' dump.data).getD 1 []))

/-- `getGitVersion()` from `root.go`. `respRelease` is the outcome of
`http.Get(versionLink)` and `fetchTag tagName` the outcome of
`http.Get(versionTagLink + release.TagName)`; `none` is a transport
error (nil response). The source runs `defer resp.Body.Close()` before
checking `resp != nil`, so a transport error on the first GET
dereferences a nil pointer: result `none` (panic). -/
def getGitVersion (versionWrapDump : String)
    (respRelease : Option (HttpResponse GitHubRelease))
    (fetchTag : String → Option (HttpResponse GitHubTag)) :
    Option GitVersionOut :=
  match respRelease with
  | none => none
  | some resp =>
    if resp.statusCode = 200 then
      match resp.body with
      | Except.error e => some ⟨"", some e, []⟩
      | Except.ok release =>
        match fetchTag release.TagName with
        | none => some ⟨"", some "could not fetch version", []⟩
        | some respTag =>
          if respTag.statusCode = 200 then
            match respTag.body with
            | Except.error e => some ⟨"", some e, []⟩
            | Except.ok releaseTag =>
              match versionCompare releaseTag.SHA versionWrapDump with
              | none => none
              | some mismatch =>
                if mismatch then
                  some ⟨release.TagName, some (warnUpgradeMsg release.TagName),
                        [warnUpgradeMsg release.TagName]⟩
                else
                  some ⟨release.TagName, none, []⟩
          else some ⟨"", some "could not fetch version", []⟩
    else some ⟨"", some "could not fetch version", []⟩

/-- The consolidated error line written by `Execute`:
`errors.Wrapf(err, "commit: %s, error", VersionWrapDump).Error() + "\n"`. -/
def commitLine (dump errMsg : String) : String :=
  "commit: " ++ dump ++ ", error: " ++ errMsg ++ "\n"

/-- The static hint line `Execute` writes after the error line. -/
def helpHint : String := "try adding a `--help` flag\n"

/-- The observable outcome of `Execute()`: whether the framework's
error printing was suppressed (`RootCmd.SilenceErrors`), whether
`getGitVersion` was invoked, the final value of `VersionWrapDump`, the
lines written to standard error, and the `os.Exit` code (`none` when
`os.Exit` is not called and the process ends normally with status 0). -/
structure ExecOut where
  silenceErrors : Bool
  gitVersionInvoked : Bool
  versionWrapDump : String
  stderr : List String
  exitCode : Option Nat
deriving DecidableEq, Repr

/-- `Execute()` from `root.go`. `cmdErr` is the result of
`RootCmd.Execute()` (`none` for success); the HTTP environment is passed
through to `getGitVersion`. Result `none` propagates a panic from
`getGitVersion`. -/
def Execute (versionWrapDump : String) (cmdErr : Option String)
    (respRelease : Option (HttpResponse GitHubRelease))
    (fetchTag : String → Option (HttpResponse GitHubTag)) :
    Option ExecOut :=
  match cmdErr with
  | none => some ⟨true, false, versionWrapDump, [], none⟩
  | some err =>
    match getGitVersion versionWrapDump respRelease fetchTag with
    | none => none
    | some g =>
      let dump2 := match g.err with
        | none => versionWrapDump ++ ":" ++ g.tag
        | some _ => versionWrapDump
      some ⟨true, true, dump2, g.stderr ++ [commitLine dump2 err, helpHint],
            some 1⟩

/-- The signing implementation selector of the transaction controller
(`transaction.Software` / `transaction.Ledger` in the SDK). -/
inductive SignerImpl where
  | Software
  | Ledger
deriving DecidableEq, Repr

/-- The `Behavior` sub-record of the SDK's `transaction.Controller`:
the three fields that `opts` may write. -/
structure ControllerBehavior where
  DryRun : Bool
  SigningImpl : SignerImpl
  ConfirmationWaitTime : Nat
deriving DecidableEq, Repr

/-- The SDK's `transaction.Controller`, split into the `Behavior`
record that `opts` touches and an abstract remainder `rest` standing
for every other field of the controller. -/
structure Controller (ρ : Type) where
  Behavior : ControllerBehavior
  rest : ρ
deriving DecidableEq, Repr

/-- The valuation of the global flags read by `opts`: `dryRun`,
`useLedgerWallet`, and `timeout` (a `uint32`, default 20). -/
structure GlobalFlags where
  dryRun : Bool
  useLedgerWallet : Bool
  timeout : Nat
deriving DecidableEq, Repr

/-- `opts(ctlr)` from `root.go`: conditionally overwrites the three
behavior fields; the in-place mutation of the Go pointer is modelled by
returning the updated controller. -/
def opts {ρ : Type} (fl : GlobalFlags) (ctlr : Controller ρ) : Controller ρ :=
  let c1 := if fl.dryRun then
      { ctlr with Behavior := { ctlr.Behavior with DryRun := true } }
    else ctlr
  let c2 := if fl.useLedgerWallet then
      { c1 with Behavior := { c1.Behavior with SigningImpl := SignerImpl.Ledger } }
    else c1
  if fl.timeout > 0 then
    { c2 with Behavior := { c2.Behavior with ConfirmationWaitTime := fl.timeout } }
  else c2

theorem splitOnChar_ne_nil (c : Char) (l : List Char) : splitOnChar c l ≠ [] := by
  induction l with
  | nil => simp [splitOnChar]
  | cons x xs ih =>
    unfold splitOnChar
    cases hs : splitOnChar c xs with
    | nil => simp
    | cons h t =>
      split
      · simp
      · split <;> simp

theorem splitOnChar_length (c : Char) (l : List Char) :
    (splitOnChar c l).length = l.count c + 1 := by
  induction l with
  | nil => simp [splitOnChar]
  | cons x xs ih =>
    unfold splitOnChar
    cases hs : splitOnChar c xs with
    | nil => exact absurd hs (splitOnChar_ne_nil c xs)
    | cons h t =>
      rw [hs] at ih
      by_cases hx : x = c
      · subst hx
        simp_all [List.count_cons]
      · simp_all [List.count_cons, hx, Ne.symm hx]

/-- C6: for every node string with no `:` the normalized endpoint is the
input with `":50051"` appended; with a `:` anywhere the input is kept. -/
theorem normalizeNode_spec (node : String) :
    normalizeNode node = if ':' ∈ node.data then node else node ++ ":50051" := by
  unfold normalizeNode
  by_cases h : ':' ∈ node.data
  · rw [if_pos h, if_neg]
    rw [splitOnChar_length]
    have hc : 0 < node.data.count ':' := List.count_pos_iff.mpr h
    omega
  · rw [if_neg h, if_pos]
    rw [splitOnChar_length, List.count_eq_zero.mpr h]

/-- C1: `findAddress` succeeds iff the input parses as a literal address
or resolves via the account-name store; literal parsing is attempted
first and wins when it succeeds; the account-name lookup decides only
when parsing fails; and when both fail the result is the
invalid-identifier error whose message contains the original input. -/
theorem findAddress_spec {A : Type} (parse fromAccountName : String → Option A)
    (x : String) :
    ((findAddress parse fromAccountName x).isOk = true ↔
      (parse x).isSome = true ∨ (fromAccountName x).isSome = true)
    ∧ (∀ a, parse x = some a → findAddress parse fromAccountName x = Except.ok a)
    ∧ (∀ acc, parse x = none → fromAccountName x = some acc →
        findAddress parse fromAccountName x = Except.ok acc)
    ∧ (parse x = none → fromAccountName x = none →
        findAddress parse fromAccountName x =
          Except.error ("Invalid address/Invalid account name: " ++ x)
        ∧ x.data <:+: ("Invalid address/Invalid account name: " ++ x).data) := by
  refine ⟨?_, ?_, ?_, ?_⟩
  · unfold findAddress
    cases hp : parse x <;> cases hf : fromAccountName x <;>
      simp [hp, hf, Except.isOk, Except.toBool]
  · intro a ha
    unfold findAddress
    rw [ha]
  · intro acc hp hf
    unfold findAddress
    rw [hp, hf]
  · intro hp hf
    refine ⟨by unfold findAddress; rw [hp, hf], ?_⟩
    exact List.IsSuffix.isInfix
      ⟨("Invalid address/Invalid account name: ").data, (String.data_append _ _).symm⟩

/-- Witness for `findAddress_spec`: concrete oracles that both fail on
the input `"bob"`, yielding the invalid-identifier error containing it. -/
theorem findAddress_spec_witness :
    findAddress (fun _ => (none : Option Nat)) (fun _ => none) "bob" =
      Except.error ("Invalid address/Invalid account name: " ++ "bob")
    ∧ "bob".data <:+: ("Invalid address/Invalid account name: " ++ "bob").data :=
  (findAddress_spec (fun _ => (none : Option Nat)) (fun _ => none) "bob").2.2.2 rfl rfl

/-- C5: `opts` writes `DryRun` only when the dry-run flag is set,
`SigningImpl` only when the ledger flag is set, `ConfirmationWaitTime`
only when `timeout > 0`, and leaves every other controller field
(`rest`) unchanged; in particular with `timeout = 0` the controller's
incoming confirmation wait survives. -/
theorem opts_frame {ρ : Type} (fl : GlobalFlags) (c : Controller ρ) :
    (opts fl c).Behavior.DryRun = (if fl.dryRun then true else c.Behavior.DryRun)
    ∧ (opts fl c).Behavior.SigningImpl =
        (if fl.useLedgerWallet then SignerImpl.Ledger else c.Behavior.SigningImpl)
    ∧ (opts fl c).Behavior.ConfirmationWaitTime =
        (if fl.timeout > 0 then fl.timeout else c.Behavior.ConfirmationWaitTime)
    ∧ (opts fl c).rest = c.rest := by
  unfold opts
  by_cases h1 : fl.dryRun <;> by_cases h2 : fl.useLedgerWallet <;>
    by_cases h3 : fl.timeout > 0 <;> simp [h1, h2, h3]

/-- C10: applying `opts` twice under one flag valuation yields the same
controller as applying it once. -/
theorem opts_idempotent {ρ : Type} (fl : GlobalFlags) (c : Controller ρ) :
    opts fl (opts fl c) = opts fl c := by
  unfold opts
  by_cases h1 : fl.dryRun <;> by_cases h2 : fl.useLedgerWallet <;>
    by_cases h3 : fl.timeout > 0 <;> simp [h1, h2, h3]

/-- C4 as stated fails on the code: with the timeout flag at 0 and a
controller whose confirmation wait is 10, `opts` leaves the wait at 10;
it is not set to a no-wait (zero) value. -/
theorem opts_timeout_zero_counterexample :
    (opts ⟨false, false, 0⟩
      (⟨⟨false, SignerImpl.Software, 10⟩, ()⟩ : Controller Unit)).Behavior.ConfirmationWaitTime = 10
    ∧ ¬ (opts ⟨false, false, 0⟩
      (⟨⟨false, SignerImpl.Software, 10⟩, ()⟩ : Controller Unit)).Behavior.ConfirmationWaitTime = 0 :=
  ⟨rfl, by decide⟩

/-- C4 (amended): when the timeout flag is 0, `opts` does not touch the
controller's `ConfirmationWaitTime` — the controller's own default
confirmation wait stays in effect (0 means do-not-override). -/
theorem opts_timeout_zero (fl : GlobalFlags) {ρ : Type} (c : Controller ρ)
    (h : fl.timeout = 0) :
    (opts fl c).Behavior.ConfirmationWaitTime = c.Behavior.ConfirmationWaitTime := by
  unfold opts
  by_cases h1 : fl.dryRun <;> by_cases h2 : fl.useLedgerWallet <;> simp [h1, h2, h]

/-- Witness for `opts_timeout_zero` at a concrete flag valuation and
controller. -/
theorem opts_timeout_zero_witness :
    (⟨true, true, 0⟩ : GlobalFlags).timeout = 0
    ∧ (opts ⟨true, true, 0⟩
        (⟨⟨false, SignerImpl.Software, 20⟩, 7⟩ : Controller Nat)).Behavior.ConfirmationWaitTime =
      (⟨⟨false, SignerImpl.Software, 20⟩, 7⟩ : Controller Nat).Behavior.ConfirmationWaitTime :=
  ⟨rfl, opts_timeout_zero ⟨true, true, 0⟩
    (⟨⟨false, SignerImpl.Software, 20⟩, 7⟩ : Controller Nat) rfl⟩

theorem two_le_splitOnChar_length (c : Char) (l : List Char) :
    2 ≤ (splitOnChar c l).length ↔ c ∈ l := by
  rw [splitOnChar_length]
  constructor
  · intro h
    exact List.count_pos_iff.mp (by omega)
  · intro h
    have : 0 < l.count c := List.count_pos_iff.mpr h
    omega

theorem versionCompare_isSome (sha dump : String) :
    (versionCompare sha dump).isSome = true ↔
      8 ≤ sha.data.length ∧ '-' ∈ dump.data := by
  rw [← two_le_splitOnChar_length '-' dump.data]
  by_cases ha : sha.data.length < 8 <;>
    by_cases hb : (splitOnChar '-' dump.data).length < 2 <;>
      simp [versionCompare, ha, hb] <;> omega

theorem tagName_infix_warnUpgradeMsg (tagName : String) :
    tagName.data <:+: (warnUpgradeMsg tagName).data := by
  have h : (warnUpgradeMsg tagName).data =
      ("Warning: Using outdated version. Redownload to upgrade to ").data ++
        tagName.data ++ ("\n").data := by
    simp [warnUpgradeMsg, String.data_append]
  rw [h]
  exact List.infix_append _ _ _

/-- C8: the comparison step of `getGitVersion` is index-fault free
exactly when the fetched SHA has at least 8 characters and the build
stamp has a second `-`-delimited segment; on the otherwise-successful
path, `getGitVersion` panics (result `none`) rather than returning an
error exactly when that precondition fails. -/
theorem versionCompare_safety (sha tag dump : String) :
    ((versionCompare sha dump).isSome = true ↔
      8 ≤ sha.data.length ∧ '-' ∈ dump.data)
    ∧ (getGitVersion dump (some ⟨200, Except.ok ⟨tag⟩⟩)
        (fun _ => some ⟨200, Except.ok ⟨sha⟩⟩) = none ↔
      ¬ (8 ≤ sha.data.length ∧ '-' ∈ dump.data)) := by
  refine ⟨versionCompare_isSome sha dump, ?_⟩
  rw [← versionCompare_isSome sha dump]
  cases hv : versionCompare sha dump with
  | none => simp [getGitVersion, hv]
  | some b => cases b <;> simp [getGitVersion, hv]

/-- C3 failing input: a transport error on the release-endpoint GET
(nil response) makes `getGitVersion` panic — the source dereferences the
nil response at `defer resp.Body.Close()` before its own nil check —
instead of returning the could-not-fetch-version failure; a non-200
status, by contrast, does return it. -/
theorem getGitVersion_transport_error_panics :
    getGitVersion "v1.0-abcdef12" none (fun _ => none) = none
    ∧ getGitVersion "v1.0-abcdef12" (some ⟨404, Except.error "body not read"⟩)
        (fun _ => none) =
      some ⟨"", some "could not fetch version", []⟩ :=
  ⟨rfl, rfl⟩

/-- C2: on the full success path (both GETs return status 200 and their
bodies decode), `getGitVersion` compares the first 8 characters of the
fetched SHA with the second `-`-segment of the build stamp: on mismatch
it returns the latest tag name together with the outdated-version
failure and writes a warning naming that tag to standard error; on a
match it returns the tag name with no failure and no warning. -/
theorem getGitVersion_compare (dump tagName sha : String)
    (h8 : 8 ≤ sha.data.length) (hd : '-' ∈ dump.data) :
    (sha.data.take 8 ≠ (splitOnChar '-' dump.data).getD 1 [] →
      getGitVersion dump (some ⟨200, Except.ok ⟨tagName⟩⟩)
          (fun _ => some ⟨200, Except.ok ⟨sha⟩⟩) =
        some ⟨tagName, some (warnUpgradeMsg tagName), [warnUpgradeMsg tagName]⟩
      ∧ tagName.data <:+: (warnUpgradeMsg tagName).data)
    ∧ (sha.data.take 8 = (splitOnChar '-' dump.data).getD 1 [] →
      getGitVersion dump (some ⟨200, Except.ok ⟨tagName⟩⟩)
          (fun _ => some ⟨200, Except.ok ⟨sha⟩⟩) =
        some ⟨tagName, none, []⟩) := by
  have hb : ¬ (splitOnChar '-' dump.data).length < 2 := by
    have := (two_le_splitOnChar_length '-' dump.data).mpr hd
    omega
  have ha : ¬ sha.data.length < 8 := by omega
  constructor
  · intro hne
    have hv : versionCompare sha dump = some true := by
      unfold versionCompare
      rw [if_neg ha, if_neg hb, decide_eq_true hne]
    exact ⟨by simp [getGitVersion, hv], tagName_infix_warnUpgradeMsg tagName⟩
  · intro heq
    have hv : versionCompare sha dump = some false := by
      unfold versionCompare
      rw [if_neg ha, if_neg hb, decide_eq_false (not_not_intro heq)]
    simp [getGitVersion, hv]

/-- Witness for `getGitVersion_compare`: a stamp whose second segment
matches the first 8 characters of the fetched SHA yields the tag name
with no failure and no warning. -/
theorem getGitVersion_compare_witness :
    8 ≤ ("abcdef1234" : String).data.length
    ∧ '-' ∈ ("v1-abcdef12" : String).data
    ∧ ("abcdef1234" : String).data.take 8 =
        (splitOnChar '-' ("v1-abcdef12" : String).data).getD 1 []
    ∧ getGitVersion "v1-abcdef12" (some ⟨200, Except.ok ⟨"v9.9.9"⟩⟩)
        (fun _ => some ⟨200, Except.ok ⟨"abcdef1234"⟩⟩) =
      some ⟨"v9.9.9", none, []⟩ :=
  ⟨by decide, by decide, by decide,
    (getGitVersion_compare "v1-abcdef12" "v9.9.9" "abcdef1234"
      (by decide) (by decide)).2 (by decide)⟩

/-- C7: on success `Execute` suppresses framework error printing but
performs no version check, writes nothing to standard error, and the
process ends with status 0 (`os.Exit` not called); on any command
failure it suppresses framework error printing, invokes the version
check, writes the error line prefixed with the build/commit stamp
followed by the static help hint, and exits with status 1. -/
theorem execute_spec (dump : String)
    (respRelease : Option (HttpResponse GitHubRelease))
    (fetchTag : String → Option (HttpResponse GitHubTag)) :
    Execute dump none respRelease fetchTag = some ⟨true, false, dump, [], none⟩
    ∧ ∀ err g, getGitVersion dump respRelease fetchTag = some g →
        ∃ d2 s, d2 = dump ++ s
          ∧ Execute dump (some err) respRelease fetchTag =
              some ⟨true, true, d2, g.stderr ++ [commitLine d2 err, helpHint],
                    some 1⟩ := by
  refine ⟨rfl, ?_⟩
  intro err g hg
  cases hge : g.err with
  | none =>
    refine ⟨dump ++ ":" ++ g.tag, ":" ++ g.tag, String.append_assoc dump ":" g.tag, ?_⟩
    simp [Execute, hg, hge]
  | some w =>
    refine ⟨dump, "", by simp, ?_⟩
    simp [Execute, hg, hge]

/-- Witness for `execute_spec`: a failing command with a non-200
release fetch yields the stamped error line, the help hint, and exit
status 1. -/
theorem execute_spec_witness :
    Execute "v1-x" none (some ⟨404, Except.error "body not read"⟩)
        (fun _ => none) =
      some ⟨true, false, "v1-x", [], none⟩
    ∧ ∃ d2 s, d2 = "v1-x" ++ s
        ∧ Execute "v1-x" (some "boom") (some ⟨404, Except.error "body not read"⟩)
            (fun _ => none) =
          some ⟨true, true, d2,
                (⟨"", some "could not fetch version", []⟩ : GitVersionOut).stderr ++
                  [commitLine d2 "boom", helpHint], some 1⟩ := by
  have h := execute_spec "v1-x" (some ⟨404, Except.error "body not read"⟩)
    (fun _ => none)
  exact ⟨h.1, h.2 "boom" ⟨"", some "could not fetch version", []⟩ rfl⟩

/-- C9: the latest tag is appended to the build stamp shown in the
`commit:` error line only when `getGitVersion` returns a nil error,
that is, only when the running build matches the latest release; when
the build is outdated the error line is built from the unmodified
stamp, and the tag appears only in the separate warning that
`getGitVersion` wrote to standard error. -/
theorem execute_tag_append (dump tagName sha err : String)
    (h8 : 8 ≤ sha.data.length) (hd : '-' ∈ dump.data) :
    (sha.data.take 8 = (splitOnChar '-' dump.data).getD 1 [] →
      Execute dump (some err) (some ⟨200, Except.ok ⟨tagName⟩⟩)
          (fun _ => some ⟨200, Except.ok ⟨sha⟩⟩) =
        some ⟨true, true, dump ++ ":" ++ tagName,
              [commitLine (dump ++ ":" ++ tagName) err, helpHint], some 1⟩)
    ∧ (sha.data.take 8 ≠ (splitOnChar '-' dump.data).getD 1 [] →
      Execute dump (some err) (some ⟨200, Except.ok ⟨tagName⟩⟩)
          (fun _ => some ⟨200, Except.ok ⟨sha⟩⟩) =
        some ⟨true, true, dump,
              [warnUpgradeMsg tagName, commitLine dump err, helpHint], some 1⟩
      ∧ tagName.data <:+: (warnUpgradeMsg tagName).data) := by
  have hb : ¬ (splitOnChar '-' dump.data).length < 2 := by
    have := (two_le_splitOnChar_length '-' dump.data).mpr hd
    omega
  have ha : ¬ sha.data.length < 8 := by omega
  constructor
  · intro heq
    have hv : versionCompare sha dump = some false := by
      unfold versionCompare
      rw [if_neg ha, if_neg hb, decide_eq_false (not_not_intro heq)]
    simp [Execute, getGitVersion, hv]
  · intro hne
    have hv : versionCompare sha dump = some true := by
      unfold versionCompare
      rw [if_neg ha, if_neg hb, decide_eq_true hne]
    exact ⟨by simp [Execute, getGitVersion, hv],
      tagName_infix_warnUpgradeMsg tagName⟩

/-- Witness for `execute_tag_append`: an outdated build (mismatching
SHA prefix) keeps the error line built from the unmodified stamp and
puts the tag only in the warning written by the version check. -/
theorem execute_tag_append_witness :
    8 ≤ ("deadbeef00" : String).data.length
    ∧ '-' ∈ ("v1-abcdef12" : String).data
    ∧ ("deadbeef00" : String).data.take 8 ≠
        (splitOnChar '-' ("v1-abcdef12" : String).data).getD 1 []
    ∧ Execute "v1-abcdef12" (some "boom") (some ⟨200, Except.ok ⟨"v9.9.9"⟩⟩)
        (fun _ => some ⟨200, Except.ok ⟨"deadbeef00"⟩⟩) =
      some ⟨true, true, "v1-abcdef12",
            [warnUpgradeMsg "v9.9.9", commitLine "v1-abcdef12" "boom", helpHint],
            some 1⟩ :=
  ⟨by decide, by decide, by decide,
    ((execute_tag_append "v1-abcdef12" "v9.9.9" "deadbeef00" "boom"
      (by decide) (by decide)).2 (by decide)).1⟩
